import Mathlib

/-!
# serf-sd-config: the reconciliation loop of `serf.go`

A shallow embedding of `src/serf.go`: the target-group builder `parseMember`,
the connection step `initialize`, the constructor `newDiscovery` and the
polling loop `Run`, followed by the properties the specification states about
them.

Conventions of the embedding

* A Go `map[K]V` is an association list with pairwise distinct keys.  Go
  leaves the order in which `range` visits the keys of a map unspecified: the
  order is an answer of the outside world (`World.rangeOrder`), required only
  to be a permutation of the keys (`World.RangeOK`).
* A `nil` slice or map and an empty one are both the empty list.
* The calls that leave the program (`client.ClientFromConfig`,
  `RPCClient.Members`, the `select` over the tick channel and `ctx.Done()`)
  are answered by a `World` value, one per loop iteration.
* What an iteration does to the outside is recorded as a list of `Event`s.
-/

namespace SerfSD

/-! ## Go standard library: `net.IP.String`, `net.JoinHostPort`, `fmt` verbs -/

/-- Go `net.IP`: a byte slice (each element a byte, `0 ≤ b < 256`). -/
abbrev IP := List Nat

/-- Go `net.hexString`: every byte as two lower-case hexadecimal digits. -/
def hexString (b : List Nat) : String :=
  String.mk (b.flatMap (fun tn => [Nat.digitChar (tn / 16), Nat.digitChar (tn % 16)]))

/-- Go `IP.To4`: the 4-byte form of an IPv4 address (plain or IPv4-mapped),
or `nil` (the empty list) when the address is not IPv4. -/
def IP.To4 (ip : IP) : IP :=
  if ip.length = 4 then ip
  else if ip.length = 16 ∧ (ip.take 10).all (fun b => b == 0)
      ∧ ip.getD 10 0 = 255 ∧ ip.getD 11 0 = 255 then ip.drop 12
  else []

/-- The dotted-decimal text of a 4-byte address. -/
def dotted (p4 : IP) : String :=
  ".".intercalate (p4.map (fun b => toString b))

/-- The eight 16-bit groups of a 16-byte address, `(p[i] << 8) | p[i+1]`. -/
def groups16 : IP → List Nat
  | a :: b :: rest => (a * 256 + b) :: groups16 rest
  | _ => []

/-- Length of the run of zero groups at the head of `gs`. -/
def zeroRun : List Nat → Nat
  | 0 :: rest => zeroRun rest + 1
  | _ => 0

/-- Scan for the longest run of zero groups, left to right, keeping the first
of the longest: returns `(start, end)` of the best run, starting the scan at
group index `i` with the best run so far `(e0, e1)`. -/
def longestZeroRun : List Nat → Nat → Nat × Nat → Nat × Nat
  | [], _, best => best
  | g :: rest, i, best =>
    let l := zeroRun (g :: rest)
    longestZeroRun rest (i + 1) (if l > best.2 - best.1 then (i, i + l) else best)

/-- Lower-case hexadecimal without leading zeros (Go `appendHex`). -/
def appendHex (i : Nat) : String := String.mk (Nat.toDigits 16 i)

/-- The text of a 16-byte address that is not IPv4: groups in hexadecimal
separated by `:`, the first longest run of two or more zero groups written
as `::`. -/
def ip6String (ip : IP) : String :=
  let gs := groups16 ip
  let run := longestZeroRun gs 0 (0, 0)
  let colon := fun (xs : List Nat) => ":".intercalate (xs.map appendHex)
  if run.2 - run.1 < 2 then colon gs
  else colon (gs.take run.1) ++ "::" ++ colon (gs.drop run.2)

/-- Go `net.IP.String`. -/
def IP.String (ip : IP) : String :=
  if ip.length = 0 then "<nil>"
  else if ip.length ≠ 4 ∧ ip.length ≠ 16 then "?" ++ hexString ip
  else if (IP.To4 ip).length = 4 then dotted (IP.To4 ip)
  else ip6String ip

/-- Go `net.JoinHostPort`: `host:port`, or `[host]:port` when the host text
contains a colon (a literal IPv6 address). -/
def JoinHostPort (host port : String) : String :=
  if ':' ∈ host.toList then "[" ++ host ++ "]:" ++ port
  else host ++ ":" ++ port

/-! ## Data model -/

/-- Serf `client.Member`, the fields a poll reports that this program can
read: the address (`net.IP`), the port (`uint16`) and the tags. -/
structure Member where
  Name : String
  Addr : IP
  Port : Nat
  Tags : List (String × String)
  deriving DecidableEq, Repr

/-- Prometheus `model.LabelSet`: `map[LabelName]LabelValue`. -/
abbrev LabelSet := List (String × String)

/-- Prometheus `model.AddressLabel`. -/
def AddressLabel : String := "__address__"

/-- Prometheus `targetgroup.Group`. -/
structure Group where
  Targets : List LabelSet := []
  Labels : LabelSet := []
  Source : String := ""
  deriving DecidableEq, Repr

/-- The configuration for serf service discovery (`SDConfig`). -/
structure SDConfig where
  Address : String := ""
  TagSeparator : String := ""
  RefreshInterval : Int := 0
  deriving DecidableEq, Repr

/-- The default Serf SD configuration (`DefaultSDConfig`). -/
def DefaultSDConfig : SDConfig := { Address := "localhost:7373" }

/-- Serf `client.Config`, the one field `initialize` sets. -/
structure ClientConfig where
  Addr : String
  deriving DecidableEq, Repr

/-- Serf `*client.RPCClient`: an open connection, identified by a handle. -/
structure RPCClient where
  handle : Nat
  deriving DecidableEq, Repr

/-- Go `map[string]bool`. -/
abbrev SourceList := List (String × Bool)

/-- The keys of a map, in the order `range` visits them. -/
def keys (m : SourceList) : List String := m.map Prod.fst

/-- The map read `m[key]`: the stored value, `false` for a missing key. -/
def mapGet : SourceList → String → Bool
  | [], _ => false
  | (k, v) :: m, key => if k = key then v else mapGet m key

/-- The map write `m[key] = v`. -/
def mapSet : SourceList → String → Bool → SourceList
  | [], key, v => [(key, v)]
  | (k, b) :: m, key, v => if k = key then (k, v) :: m else (k, b) :: mapSet m key v

/-- The state of `discovery` (the logger left out). -/
structure discovery where
  address : String
  refreshInterval : Int
  tagSeparator : String
  oldSourceList : SourceList
  config : SDConfig
  client : Option RPCClient
  deriving DecidableEq, Repr

/-! ## `parseMember` -/

/-- Go `func (d *discovery) parseMember(member client.Member) *targetgroup.Group`. -/
def discovery.parseMember (_d : discovery) (member : Member) : Group :=
  let tgroup : Group := { Labels := [], Targets := [] }
  let addr := JoinHostPort (IP.String member.Addr) (toString member.Port)
  let target : LabelSet := [(AddressLabel, addr)]
  { tgroup with Targets := tgroup.Targets ++ [target] }

/-! ## The outside world and what the loop does to it -/

/-- Which of the two channels of the final `select` can be received from at
the moment the `select` proceeds (it blocks until one can). -/
inductive Ready where
  | tick
  | done
  | both
  deriving DecidableEq, Repr

/-- The answers of the outside world during one iteration of the loop. -/
structure World where
  /-- The answer of `client.ClientFromConfig` to a configuration. -/
  ClientFromConfig : ClientConfig → Except String RPCClient
  /-- The answer of `Members` on a connection. -/
  Members : RPCClient → Except String (List Member)
  /-- The order in which `range` visits the keys of a map, given the keys. -/
  rangeOrder : List String → List String
  /-- The channels ready at the `select`. -/
  ready : Ready
  /-- The runtime choice among several ready cases of a `select`: `true`
  picks the first case (`<-c`), `false` the second (`<-ctx.Done()`). -/
  pickFirst : Bool

/-- What an iteration does that can be seen from outside. -/
inductive Event where
  /-- Call of `client.ClientFromConfig(&conf)` with `conf.Addr = addr`. -/
  | connect (addr : String)
  /-- Call of `d.client.Members()`. -/
  | members
  /-- Call of `level.Error(d.logger).Log("msg", msg, "err", err)`. -/
  | logError (msg err : String)
  /-- Call of `time.Sleep` for the given number of seconds. -/
  | sleep (seconds : Int)
  /-- The send `ch <- tgs`. -/
  | send (tgs : List Group)
  deriving DecidableEq, Repr

/-- How the body of the `for` loop is left. -/
inductive Exit where
  /-- The next iteration starts (`continue`). -/
  | continue_
  /-- The function `Run` is over (`return`). -/
  | return_
  deriving DecidableEq, Repr

/-! ## `initialize`, `newDiscovery`, `Run` -/

/-- Go `func (d *discovery) initialize(ctx context.Context) error`: the state
after the call, the events, and the error (`none` for `nil`). -/
def discovery.initialize (d : discovery) (w : World) :
    discovery × List Event × Option String :=
  let d := { d with config := DefaultSDConfig }
  let conf : ClientConfig := { Addr := d.config.Address }
  match w.ClientFromConfig conf with
  | .error err => (d, [Event.connect conf.Addr], some err)
  | .ok cli => ({ d with client := some cli }, [Event.connect conf.Addr], none)

/-- Go `func newDiscovery(conf SDConfig) (*discovery, error)`; the error is
always `nil`. -/
def newDiscovery (conf : SDConfig) : discovery :=
  { address := conf.Address
    refreshInterval := conf.RefreshInterval
    tagSeparator := conf.TagSeparator
    oldSourceList := []
    config := {}
    client := none }

/-- The first inner loop of `Run`, `for _, member := range members`, from the
given `tgs` and `newSourceList`. -/
def liveLoop (d : discovery) (members : List Member)
    (acc : List Group × SourceList) : List Group × SourceList :=
  members.foldl
    (fun acc member =>
      let tg := d.parseMember member
      (acc.1 ++ [tg], mapSet acc.2 tg.Source true))
    acc

/-- The second inner loop of `Run`, `for key := range d.oldSourceList`, from
the given `tgs`; `order` is the order in which `range` visits the keys. -/
def tombstoneLoop (order : List String → List String)
    (oldSourceList newSourceList : SourceList) (tgs : List Group) : List Group :=
  (order (keys oldSourceList)).foldl
    (fun tgs key =>
      if !mapGet newSourceList key then tgs ++ [{ Source := key }] else tgs)
    tgs

/-- The `select` at the end of the loop body: `<-c` continues, `<-ctx.Done()`
returns; with both ready the runtime picks one. -/
def selectWait (ready : Ready) (pickFirst : Bool) : Exit :=
  match ready with
  | .tick => .continue_
  | .done => .return_
  | .both => if pickFirst then .continue_ else .return_

/-- One pass through the body of the `for` loop of `Run`. -/
def iteration (d : discovery) (w : World) : discovery × List Event × Exit :=
  match discovery.initialize d w with
  | (d, ev, some err) =>
    (d, ev ++ [Event.logError "Error initializing serf client" err,
               Event.sleep d.refreshInterval], .continue_)
  | (d, ev, none) =>
    match d.client with
    | none => (d, ev, .return_)  -- a nil client after a nil error: not reached
    | some cli =>
      match w.Members cli with
      | .error err =>
        (d, ev ++ [Event.members,
                   Event.logError "Error getting members list" err,
                   Event.sleep d.refreshInterval], .continue_)
      | .ok members =>
        let (tgs, newSourceList) := liveLoop d members ([], [])
        let tgs := tombstoneLoop w.rangeOrder d.oldSourceList newSourceList tgs
        let d := { d with oldSourceList := newSourceList }
        -- `err == nil` holds here (both error branches have left), so `ch <- tgs` runs
        (d, ev ++ [Event.members, Event.send tgs], selectWait w.ready w.pickFirst)

/-- Go `func (d *discovery) Run(ctx, ch)`: the loop, run against the worlds of
its successive iterations; it stops at `return` or when the list is used up. -/
def Run (d : discovery) : List World → discovery × List Event
  | [] => (d, [])
  | w :: ws =>
    match iteration d w with
    | (d, ev, .return_) => (d, ev)
    | (d, ev, .continue_) =>
      let r := Run d ws
      (r.1, ev ++ r.2)

/-- The batches sent on the channel, in order. -/
def sent : List Event → List (List Group)
  | [] => []
  | Event.send tgs :: rest => tgs :: sent rest
  | _ :: rest => sent rest

/-- The addresses handed to `client.ClientFromConfig`, in order. -/
def connects : List Event → List String
  | [] => []
  | Event.connect addr :: rest => addr :: connects rest
  | _ :: rest => connects rest

/-- A group is live when it has a target, a tombstone when it has none. -/
def isLive (g : Group) : Bool := !g.Targets.isEmpty

/-- The runtime keeps its promise about `range`: the keys are visited once
each, in some order. -/
def World.RangeOK (w : World) : Prop := ∀ ks, (w.rangeOrder ks).Perm ks

/-- The poll of this iteration succeeds with the member list `ms`:
`d.initialize` returns `nil` and `d.client.Members()` returns `ms, nil`. -/
def Succeeds (d : discovery) (w : World) (ms : List Member) : Prop :=
  ( discovery.initialize d w).2.2 = none ∧
    ∃ cli, ( discovery.initialize d w).1.client = some cli ∧ w.Members cli = .ok ms

/-- The connect of this iteration fails: `d.initialize` returns an error. -/
def ConnectFails (d : discovery) (w : World) : Prop :=
  ∃ err, ( discovery.initialize d w).2.2 = some err

/-- The member query of this iteration fails: `d.initialize` returns `nil`
and `d.client.Members()` returns an error. -/
def QueryFails (d : discovery) (w : World) : Prop :=
  ( discovery.initialize d w).2.2 = none ∧
    ∃ cli err, ( discovery.initialize d w).1.client = some cli ∧ w.Members cli = .error err

/-- A world whose connect succeeds and whose member query answers `ms`. -/
def okWorld (ms : List Member) (ready : Ready) (pickFirst : Bool) : World :=
  { ClientFromConfig := fun _ => .ok { handle := 0 }
    Members := fun _ => .ok ms
    rangeOrder := id
    ready := ready
    pickFirst := pickFirst }

/-- A world whose connect fails. -/
def connectErrWorld (err : String) : World :=
  { ClientFromConfig := fun _ => .error err
    Members := fun _ => .ok []
    rangeOrder := id
    ready := .tick
    pickFirst := true }

/-- A world whose connect succeeds and whose member query fails. -/
def queryErrWorld (err : String) : World :=
  { ClientFromConfig := fun _ => .ok { handle := 0 }
    Members := fun _ => .error err
    rangeOrder := id
    ready := .tick
    pickFirst := true }

/-- A member with the given IPv4 address and port. -/
def member4 (a b c e : Nat) (port : Nat) : Member :=
  { Name := "", Addr := [a, b, c, e], Port := port, Tags := [] }

/-! ## Derived notions and example inputs -/

/-- Every value stored in the map is `true`. -/
def AllTrue (m : SourceList) : Prop := ∀ p ∈ m, p.2 = true

/-- The tombstone for a source: `&targetgroup.Group{Source: key}`. -/
def tombstone (key : String) : Group := { Source := key }

/-- The tombstones of a cycle: one for every key of the stored map, in the
order `range` visits them, that the new map does not hold. -/
def tombstonesOf (d : discovery) (w : World) (ms : List Member) : List Group :=
  ((w.rangeOrder (keys d.oldSourceList)).filter
    (fun key => !mapGet (liveLoop d ms ([], [])).2 key)).map tombstone

/-- A fresh discovery that has completed one successful poll of one member. -/
def afterOnePoll : discovery :=
  (Run (newDiscovery { Address := "localhost:7373", RefreshInterval := 30 })
    [okWorld [member4 10 0 0 1 9100] .tick true]).1

/-- The IPv6 loopback address `::1` on port 9100. -/
def loopback6 : Member :=
  { Name := "", Addr := [0, 0, 0, 0, 0, 0, 0, 0, 0, 0, 0, 0, 0, 0, 0, 1], Port := 9100,
    Tags := [] }

/-- The configuration `main` builds when `--listen.address=10.0.0.5:7373`. -/
def remoteConf : SDConfig :=
  { TagSeparator := ",", Address := "10.0.0.5:7373", RefreshInterval := 30 }

/-- The four polls of the scenario of the specification, a tick ending each
wait. -/
def fourPolls : List World :=
  [okWorld [member4 10 0 0 1 9100, member4 10 0 0 2 9100] .tick true,
    okWorld [member4 10 0 0 1 9100] .tick true,
    queryErrWorld "query failed",
    okWorld [member4 10 0 0 1 9100, member4 10 0 0 3 9100] .tick true]

/-! ## Lemmas on maps -/

theorem mem_keys_mapSet (m : SourceList) (key k : String) (v : Bool) :
    k ∈ keys (mapSet m key v) ↔ k = key ∨ k ∈ keys m := by
  induction m with
  | nil => simp [mapSet, keys]
  | cons p m ih =>
    obtain ⟨a, b⟩ := p
    unfold mapSet
    split
    · next h => subst h; simp [keys]
    · simp only [keys, List.map_cons, List.mem_cons] at ih ⊢
      rw [ih]; tauto

theorem nodup_keys_mapSet (m : SourceList) (key : String) (v : Bool)
    (h : (keys m).Nodup) : (keys (mapSet m key v)).Nodup := by
  induction m with
  | nil => simp [mapSet, keys]
  | cons p m ih =>
    obtain ⟨a, b⟩ := p
    have hm : (keys m).Nodup := (List.nodup_cons.mp h).2
    have ha : a ∉ keys m := (List.nodup_cons.mp h).1
    unfold mapSet
    split
    · exact h
    · next hne =>
      show (a :: keys (mapSet m key v)).Nodup
      refine List.nodup_cons.mpr ⟨?_, ih hm⟩
      intro hmem
      rcases (mem_keys_mapSet m key a v).mp hmem with h1 | h1
      · exact hne h1
      · exact ha h1

theorem allTrue_mapSet (m : SourceList) (key : String) (h : AllTrue m) :
    AllTrue (mapSet m key true) := by
  induction m with
  | nil => intro p hp; simp [mapSet] at hp; simp [hp]
  | cons p m ih =>
    obtain ⟨a, b⟩ := p
    have hm : AllTrue m := fun q hq => h q (List.mem_cons_of_mem _ hq)
    have hb : b = true := h (a, b) (List.mem_cons_self _ _)
    unfold mapSet
    split
    · intro q hq
      rcases List.mem_cons.mp hq with h1 | h1
      · simp [h1]
      · exact hm q h1
    · intro q hq
      rcases List.mem_cons.mp hq with h1 | h1
      · simp [h1, hb]
      · exact ih hm q h1

theorem mapGet_eq_true_iff (m : SourceList) (h : AllTrue m) (k : String) :
    mapGet m k = true ↔ k ∈ keys m := by
  induction m with
  | nil => simp [mapGet, keys]
  | cons p m ih =>
    obtain ⟨a, b⟩ := p
    have hm : AllTrue m := fun q hq => h q (List.mem_cons_of_mem _ hq)
    have hb : b = true := h (a, b) (List.mem_cons_self _ _)
    unfold mapGet
    split
    · next heq => subst heq; simp [keys, hb]
    · next hne =>
      rw [ih hm]
      simp only [keys, List.map_cons, List.mem_cons]
      constructor
      · exact Or.inr
      · rintro (h1 | h1)
        · exact absurd h1.symm hne
        · exact h1

/-! ## Lemmas on the two inner loops -/

theorem liveLoop_fst (d : discovery) (ms : List Member) (acc : List Group × SourceList) :
    (liveLoop d ms acc).1 = acc.1 ++ ms.map d.parseMember := by
  induction ms generalizing acc with
  | nil => simp [liveLoop]
  | cons m ms ih =>
    have := ih (acc.1 ++ [d.parseMember m], mapSet acc.2 (d.parseMember m).Source true)
    simp only [liveLoop, List.foldl_cons] at this ⊢
    rw [this]; simp

theorem liveLoop_keys (d : discovery) (ms : List Member) (acc : List Group × SourceList)
    (k : String) :
    k ∈ keys (liveLoop d ms acc).2 ↔
      k ∈ keys acc.2 ∨ ∃ m ∈ ms, (d.parseMember m).Source = k := by
  induction ms generalizing acc with
  | nil => simp [liveLoop]
  | cons m ms ih =>
    have := ih (acc.1 ++ [d.parseMember m], mapSet acc.2 (d.parseMember m).Source true)
    simp only [liveLoop, List.foldl_cons] at this ⊢
    rw [this, mem_keys_mapSet]
    simp only [List.mem_cons, exists_eq_or_imp]
    constructor
    · rintro ((h | h) | h)
      · exact Or.inr (Or.inl h.symm)
      · exact Or.inl h
      · exact Or.inr (Or.inr h)
    · rintro (h | h | h)
      · exact Or.inl (Or.inr h)
      · exact Or.inl (Or.inl h.symm)
      · exact Or.inr h

theorem liveLoop_nodup (d : discovery) (ms : List Member) (acc : List Group × SourceList)
    (h : (keys acc.2).Nodup) : (keys (liveLoop d ms acc).2).Nodup := by
  induction ms generalizing acc with
  | nil => simpa [liveLoop] using h
  | cons m ms ih =>
    have := ih (acc.1 ++ [d.parseMember m], mapSet acc.2 (d.parseMember m).Source true)
      (nodup_keys_mapSet _ _ _ h)
    simpa only [liveLoop, List.foldl_cons] using this

theorem liveLoop_allTrue (d : discovery) (ms : List Member) (acc : List Group × SourceList)
    (h : AllTrue acc.2) : AllTrue (liveLoop d ms acc).2 := by
  induction ms generalizing acc with
  | nil => simpa [liveLoop] using h
  | cons m ms ih =>
    have := ih (acc.1 ++ [d.parseMember m], mapSet acc.2 (d.parseMember m).Source true)
      (allTrue_mapSet _ _ h)
    simpa only [liveLoop, List.foldl_cons] using this

/-- The map read in the second loop: `newSourceList[key]` is `true` exactly
for the sources of this cycle's groups. -/
theorem mapGet_liveLoop (d : discovery) (ms : List Member) (k : String) :
    mapGet (liveLoop d ms ([], [])).2 k = true ↔
      ∃ m ∈ ms, (d.parseMember m).Source = k := by
  rw [mapGet_eq_true_iff _ (liveLoop_allTrue d ms ([], []) (fun _ hp => by simp at hp)),
    liveLoop_keys]
  simp [keys]

theorem tombstoneLoop_eq (order : List String → List String)
    (oldSourceList newSourceList : SourceList) (tgs : List Group) :
    tombstoneLoop order oldSourceList newSourceList tgs =
      tgs ++ ((order (keys oldSourceList)).filter
        (fun key => !mapGet newSourceList key)).map tombstone := by
  unfold tombstoneLoop
  generalize order (keys oldSourceList) = ks
  induction ks generalizing tgs with
  | nil => simp
  | cons k ks ih =>
    simp only [List.foldl_cons, List.filter_cons]
    rw [ih]
    cases h : mapGet newSourceList k <;> simp [tombstone]

/-! ## Lemmas on one iteration -/

theorem initialize_events (d : discovery) (w : World) :
    ( discovery.initialize d w).2.1 = [Event.connect DefaultSDConfig.Address] := by
  simp only [ discovery.initialize]
  cases w.ClientFromConfig { Addr := DefaultSDConfig.Address } <;> rfl

theorem initialize_oldSourceList (d : discovery) (w : World) :
    ( discovery.initialize d w).1.oldSourceList = d.oldSourceList := by
  simp only [ discovery.initialize]
  cases w.ClientFromConfig { Addr := DefaultSDConfig.Address } <;> rfl

theorem initialize_refreshInterval (d : discovery) (w : World) :
    ( discovery.initialize d w).1.refreshInterval = d.refreshInterval := by
  simp only [ discovery.initialize]
  cases w.ClientFromConfig { Addr := DefaultSDConfig.Address } <;> rfl

/-- What an iteration with a successful poll does. -/
theorem iteration_success (d : discovery) (w : World) (ms : List Member)
    (h : Succeeds d w ms) :
    iteration d w =
      ({ ( discovery.initialize d w).1 with oldSourceList := (liveLoop d ms ([], [])).2 },
        [Event.connect DefaultSDConfig.Address, Event.members,
          Event.send (ms.map d.parseMember ++ tombstonesOf d w ms)],
        selectWait w.ready w.pickFirst) := by
  obtain ⟨he, cli, hc, hm⟩ := h
  have hev := initialize_events d w
  have hold := initialize_oldSourceList d w
  unfold iteration
  rcases hi : discovery.initialize d w with ⟨d1, ev, e⟩
  rw [hi] at he hc hev hold
  simp only at he hc hev hold
  subst he hev
  simp only [hc, hm, hold, tombstoneLoop_eq]
  have h1 : liveLoop d1 ms ([], []) = liveLoop d ms ([], []) := rfl
  rw [h1, liveLoop_fst]
  rfl

/-- What an iteration whose connect fails does. -/
theorem iteration_connectFails (d : discovery) (w : World) (err : String)
    (h : ( discovery.initialize d w).2.2 = some err) :
    iteration d w =
      (( discovery.initialize d w).1,
        [Event.connect DefaultSDConfig.Address,
          Event.logError "Error initializing serf client" err,
          Event.sleep d.refreshInterval],
        Exit.continue_) := by
  have hev := initialize_events d w
  have hr := initialize_refreshInterval d w
  unfold iteration
  rcases hi : discovery.initialize d w with ⟨d1, ev, e⟩
  rw [hi] at h hev hr
  simp only at h hev hr
  subst h hev
  simp [hr]

/-- What an iteration whose member query fails does. -/
theorem iteration_queryFails (d : discovery) (w : World) (cli : RPCClient) (err : String)
    (he : ( discovery.initialize d w).2.2 = none) (hc : ( discovery.initialize d w).1.client = some cli)
    (hm : w.Members cli = .error err) :
    iteration d w =
      (( discovery.initialize d w).1,
        [Event.connect DefaultSDConfig.Address, Event.members,
          Event.logError "Error getting members list" err,
          Event.sleep d.refreshInterval],
        Exit.continue_) := by
  have hev := initialize_events d w
  have hr := initialize_refreshInterval d w
  unfold iteration
  rcases hi : discovery.initialize d w with ⟨d1, ev, e⟩
  rw [hi] at he hc hev hr
  simp only at he hc hev hr
  subst he hev
  simp [hc, hm, hr]

theorem mem_tombstonesOf (d : discovery) (w : World) (ms : List Member)
    (hr : w.RangeOK) (g : Group) :
    g ∈ tombstonesOf d w ms ↔
      ∃ key ∈ keys d.oldSourceList,
        (∀ m ∈ ms, (d.parseMember m).Source ≠ key) ∧ g = tombstone key := by
  unfold tombstonesOf
  simp only [List.mem_map, List.mem_filter, (hr _).mem_iff, Bool.not_eq_true_eq_eq_false]
  constructor
  · rintro ⟨key, ⟨hk, hg⟩, rfl⟩
    refine ⟨key, hk, ?_, rfl⟩
    intro m hm hs
    have := (mapGet_liveLoop d ms key).mpr ⟨m, hm, hs⟩
    rw [this] at hg
    exact Bool.noConfusion hg
  · rintro ⟨key, hk, hn, rfl⟩
    refine ⟨key, ⟨hk, ?_⟩, rfl⟩
    cases hg : mapGet (liveLoop d ms ([], [])).2 key
    · rfl
    · obtain ⟨m, hm, hs⟩ := (mapGet_liveLoop d ms key).mp hg
      exact absurd hs (hn m hm)

theorem parseMember_isLive (d : discovery) (m : Member) : isLive (d.parseMember m) = true :=
  rfl

theorem tombstone_not_isLive (key : String) : isLive (tombstone key) = false := rfl

theorem sent_iteration_success (d : discovery) (w : World) (ms : List Member)
    (h : Succeeds d w ms) :
    sent (iteration d w).2.1 = [ms.map d.parseMember ++ tombstonesOf d w ms] := by
  rw [iteration_success d w ms h]; rfl

theorem oldSourceList_iteration_success (d : discovery) (w : World) (ms : List Member)
    (h : Succeeds d w ms) :
    (iteration d w).1.oldSourceList = (liveLoop d ms ([], [])).2 := by
  rw [iteration_success d w ms h]

/-- In a list without repetition that holds `a`, a filter that keeps `a` and
nothing else leaves `[a]`. -/
theorem filter_eq_singleton {α : Type} (l : List α) (a : α) (q : α → Bool)
    (hnd : l.Nodup) (ha : a ∈ l) (hq : ∀ x, q x = true ↔ x = a) :
    l.filter q = [a] := by
  induction l with
  | nil => simp at ha
  | cons x l ih =>
    obtain ⟨hx, hl⟩ := List.nodup_cons.mp hnd
    by_cases hxa : x = a
    · subst hxa
      have h1 : q x = true := (hq x).mpr rfl
      have h2 : l.filter q = [] := by
        apply List.filter_eq_nil_iff.mpr
        intro y hy hqy
        exact hx ((hq y).mp hqy ▸ hy)
      simp [List.filter_cons, h1, h2]
    · have h1 : q x = false := by
        cases h : q x
        · rfl
        · exact absurd ((hq x).mp h) hxa
      have h2 : a ∈ l := by
        rcases List.mem_cons.mp ha with h | h
        · exact absurd h.symm hxa
        · exact h
      simp [List.filter_cons, h1, ih hl h2]

theorem okWorld_rangeOK (ms : List Member) (ready : Ready) (pickFirst : Bool) :
    (okWorld ms ready pickFirst).RangeOK :=
  fun _ => List.Perm.refl _

theorem okWorld_succeeds (d : discovery) (ms : List Member) (ready : Ready)
    (pickFirst : Bool) : Succeeds d (okWorld ms ready pickFirst) ms :=
  ⟨rfl, ⟨0⟩, rfl, rfl⟩

/-! ## Lemmas on `Run` -/

theorem Run_cons_continue (d : discovery) (w : World) (ws : List World)
    (h : (iteration d w).2.2 = Exit.continue_) :
    Run d (w :: ws) =
      ((Run (iteration d w).1 ws).1, (iteration d w).2.1 ++ (Run (iteration d w).1 ws).2) := by
  rcases hi : iteration d w with ⟨d1, ev, e⟩
  rw [hi] at h
  simp only at h
  subst h
  simp only [Run, hi]

theorem Run_cons_return (d : discovery) (w : World) (ws : List World)
    (h : (iteration d w).2.2 = Exit.return_) :
    Run d (w :: ws) = ((iteration d w).1, (iteration d w).2.1) := by
  rcases hi : iteration d w with ⟨d1, ev, e⟩
  rw [hi] at h
  simp only at h
  subst h
  simp only [Run, hi]

theorem Run_single (d : discovery) (w : World) :
    Run d [w] = ((iteration d w).1, (iteration d w).2.1) := by
  rcases hi : iteration d w with ⟨d1, ev, e⟩
  cases e <;> simp [Run, hi]

theorem sent_append (xs ys : List Event) : sent (xs ++ ys) = sent xs ++ sent ys := by
  induction xs with
  | nil => rfl
  | cons e xs ih => cases e <;> simp [sent, ih]

theorem connects_append (xs ys : List Event) :
    connects (xs ++ ys) = connects xs ++ connects ys := by
  induction xs with
  | nil => rfl
  | cons e xs ih => cases e <;> simp [connects, ih]

theorem filter_isLive_batch (d : discovery) (w : World) (ms : List Member) :
    (ms.map d.parseMember ++ tombstonesOf d w ms).filter isLive = ms.map d.parseMember := by
  rw [List.filter_append]
  have h1 : (ms.map d.parseMember).filter isLive = ms.map d.parseMember := by
    apply List.filter_eq_self.mpr
    intro g hg
    obtain ⟨m, _, rfl⟩ := List.mem_map.mp hg
    rfl
  have h2 : (tombstonesOf d w ms).filter isLive = [] := by
    apply List.filter_eq_nil_iff.mpr
    intro g hg
    obtain ⟨k, _, rfl⟩ := List.mem_map.mp hg
    simp [tombstone_not_isLive]
  rw [h1, h2, List.append_nil]

/-- No tombstone is built when the stored map is the one this same member
list has just left. -/
theorem tombstonesOf_same (d d2 : discovery) (w : World) (ms : List Member)
    (hr : w.RangeOK) (hd : d2.oldSourceList = (liveLoop d ms ([], [])).2) :
    tombstonesOf d2 w ms = [] := by
  unfold tombstonesOf
  rw [List.map_eq_nil_iff]
  apply List.filter_eq_nil_iff.mpr
  intro key hk
  rw [(hr _).mem_iff, hd] at hk
  have h1 : liveLoop d2 ms ([], []) = liveLoop d ms ([], []) := rfl
  have hall : AllTrue (liveLoop d ms ([], [])).2 :=
    liveLoop_allTrue d ms ([], []) (fun _ hp => by simp at hp)
  rw [h1, (mapGet_eq_true_iff _ hall key).mpr hk]
  simp

/-! ## The claims -/

/-- C1, tombstone completeness: after a successful poll, every source `S`
that is a key of the stored map and is not the source of any live group built
from this cycle's members has exactly one group in the emitted batch, and
that group has no targets. -/
theorem tombstone_completeness (d : discovery) (w : World) (ms : List Member)
    (hr : w.RangeOK) (hnd : (keys d.oldSourceList).Nodup) (hs : Succeeds d w ms)
    (S : String) (hS : S ∈ keys d.oldSourceList)
    (hlive : ∀ g ∈ ms.map d.parseMember, g.Source ≠ S) :
    ∃ batch g, sent (iteration d w).2.1 = [batch] ∧
      batch.filter (fun x => x.Source = S) = [g] ∧ g.Source = S ∧ g.Targets = [] := by
  refine ⟨_, tombstone S, sent_iteration_success d w ms hs, ?_, rfl, rfl⟩
  have hl : (ms.map d.parseMember).filter (fun x => decide (x.Source = S)) = [] := by
    apply List.filter_eq_nil_iff.mpr
    intro g hg hgS
    exact hlive g hg (of_decide_eq_true hgS)
  have hget : mapGet (liveLoop d ms ([], [])).2 S = false := by
    cases h : mapGet (liveLoop d ms ([], [])).2 S
    · rfl
    · obtain ⟨m, hm, hsrc⟩ := (mapGet_liveLoop d ms S).mp h
      exact absurd hsrc (hlive _ (List.mem_map_of_mem _ hm))
  rw [List.filter_append, hl, List.nil_append]
  unfold tombstonesOf
  rw [List.filter_map, List.filter_filter,
    filter_eq_singleton (w.rangeOrder (keys d.oldSourceList)) S _
      ((hr _).nodup_iff.mpr hnd) ((hr _).mem_iff.mpr hS)]
  · rfl
  · intro x
    simp only [Function.comp, tombstone, Bool.and_eq_true, decide_eq_true_eq,
      Bool.not_eq_true_eq_eq_false]
    constructor
    · exact fun h => h.1
    · rintro rfl
      exact ⟨rfl, hget⟩

/-- Witness of C1: the state left by a poll of one member, then a poll that
returns no member; the stored source gets its tombstone. -/
theorem tombstone_completeness_witness :
    (okWorld [] .tick true).RangeOK ∧ (keys afterOnePoll.oldSourceList).Nodup ∧
      "" ∈ keys afterOnePoll.oldSourceList ∧
      ∃ batch g, sent (iteration afterOnePoll (okWorld [] .tick true)).2.1 = [batch] ∧
        batch.filter (fun x => x.Source = "") = [g] ∧ g.Source = "" ∧ g.Targets = [] :=
  ⟨okWorld_rangeOK _ _ _, by decide, by decide,
    tombstone_completeness afterOnePoll (okWorld [] .tick true) []
      (okWorld_rangeOK _ _ _) (by decide) (okWorld_succeeds _ _ _ _) "" (by decide)
      (by intro g hg; simp at hg)⟩

/-- C2, no emission on failure: when the connect (`initialize`) or the member
query (`client.Members`) of a cycle fails, the cycle sends no batch and
leaves `oldSourceList` as it was. -/
theorem no_emission_on_failure (d : discovery) (w : World)
    (hf : ConnectFails d w ∨ QueryFails d w) :
    sent (iteration d w).2.1 = [] ∧ (iteration d w).1.oldSourceList = d.oldSourceList := by
  rcases hf with ⟨err, he⟩ | ⟨he, cli, err, hc, hm⟩
  · rw [iteration_connectFails d w err he]
    exact ⟨rfl, initialize_oldSourceList d w⟩
  · rw [iteration_queryFails d w cli err he hc hm]
    exact ⟨rfl, initialize_oldSourceList d w⟩

/-- Witness of C2: a failing connect and a failing member query, both after
one successful poll. -/
theorem no_emission_on_failure_witness :
    (sent (iteration afterOnePoll (connectErrWorld "refused")).2.1 = [] ∧
      (iteration afterOnePoll (connectErrWorld "refused")).1.oldSourceList
        = afterOnePoll.oldSourceList) ∧
    (sent (iteration afterOnePoll (queryErrWorld "eof")).2.1 = [] ∧
      (iteration afterOnePoll (queryErrWorld "eof")).1.oldSourceList
        = afterOnePoll.oldSourceList) :=
  ⟨no_emission_on_failure afterOnePoll (connectErrWorld "refused") (Or.inl ⟨"refused", rfl⟩),
    no_emission_on_failure afterOnePoll (queryErrWorld "eof")
      (Or.inr ⟨rfl, ⟨0⟩, "eof", rfl, rfl⟩)⟩

/-- C3, the source-set invariant: in any state `Run` reaches from
`newDiscovery conf`, after a successful poll cycle the keys of `oldSourceList`
(pairwise distinct) are exactly the `Source` values of the live groups of the
batch that cycle sent. -/
theorem sourceSet_invariant (conf : SDConfig) (ws : List World) (w : World)
    (ms : List Member) (hs : Succeeds (Run (newDiscovery conf) ws).1 w ms) :
    ∃ batch, sent (iteration (Run (newDiscovery conf) ws).1 w).2.1 = [batch] ∧
      (keys (iteration (Run (newDiscovery conf) ws).1 w).1.oldSourceList).Nodup ∧
      ∀ S, S ∈ keys (iteration (Run (newDiscovery conf) ws).1 w).1.oldSourceList ↔
        ∃ g ∈ batch, isLive g = true ∧ g.Source = S := by
  generalize (Run (newDiscovery conf) ws).1 = d at hs ⊢
  refine ⟨_, sent_iteration_success d w ms hs, ?_, ?_⟩
  · rw [oldSourceList_iteration_success d w ms hs]
    exact liveLoop_nodup d ms ([], []) List.nodup_nil
  · intro S
    rw [oldSourceList_iteration_success d w ms hs, liveLoop_keys]
    constructor
    · rintro (h | ⟨m, hm, hsrc⟩)
      · simp [keys] at h
      · exact ⟨d.parseMember m, List.mem_append_left _ (List.mem_map_of_mem _ hm),
          rfl, hsrc⟩
    · rintro ⟨g, hg, hlive, hsrc⟩
      have hg2 : g ∈ (ms.map d.parseMember ++ tombstonesOf d w ms).filter isLive :=
        List.mem_filter.mpr ⟨hg, hlive⟩
      rw [filter_isLive_batch] at hg2
      obtain ⟨m, hm, rfl⟩ := List.mem_map.mp hg2
      exact Or.inr ⟨m, hm, hsrc⟩

/-- Witness of C3: two polls from a fresh discovery, the second one losing a
member. -/
theorem sourceSet_invariant_witness :
    ∃ batch,
      sent (iteration
        (Run (newDiscovery { Address := "localhost:7373", RefreshInterval := 30 })
          [okWorld [member4 10 0 0 1 9100, member4 10 0 0 2 9100] .tick true]).1
        (okWorld [member4 10 0 0 1 9100] .tick true)).2.1 = [batch] ∧
      (keys (iteration
        (Run (newDiscovery { Address := "localhost:7373", RefreshInterval := 30 })
          [okWorld [member4 10 0 0 1 9100, member4 10 0 0 2 9100] .tick true]).1
        (okWorld [member4 10 0 0 1 9100] .tick true)).1.oldSourceList).Nodup ∧
      ∀ S, S ∈ keys (iteration
        (Run (newDiscovery { Address := "localhost:7373", RefreshInterval := 30 })
          [okWorld [member4 10 0 0 1 9100, member4 10 0 0 2 9100] .tick true]).1
        (okWorld [member4 10 0 0 1 9100] .tick true)).1.oldSourceList ↔
        ∃ g ∈ batch, isLive g = true ∧ g.Source = S :=
  sourceSet_invariant { Address := "localhost:7373", RefreshInterval := 30 }
    [okWorld [member4 10 0 0 1 9100, member4 10 0 0 2 9100] .tick true]
    (okWorld [member4 10 0 0 1 9100] .tick true) [member4 10 0 0 1 9100]
    (okWorld_succeeds _ _ _ _)

/-- C5, batch composition without deduplication: a successful poll of `ms`
sends one batch; it begins with one live group per element of `ms`, in the
order of `ms`, and the rest are groups without targets whose source is a key
of the stored map and not the source of any of this cycle's groups. -/
theorem batch_composition (d : discovery) (w : World) (ms : List Member)
    (hr : w.RangeOK) (hs : Succeeds d w ms) :
    ∃ tombs, sent (iteration d w).2.1 = [ms.map d.parseMember ++ tombs] ∧
      (ms.map d.parseMember).length = ms.length ∧
      (∀ g ∈ ms.map d.parseMember, isLive g = true) ∧
      ∀ t ∈ tombs, t.Targets = [] ∧ t.Source ∈ keys d.oldSourceList ∧
        ∀ g ∈ ms.map d.parseMember, g.Source ≠ t.Source := by
  refine ⟨tombstonesOf d w ms, sent_iteration_success d w ms hs, List.length_map _ _, ?_, ?_⟩
  · intro g hg
    obtain ⟨m, _, rfl⟩ := List.mem_map.mp hg
    rfl
  · intro t ht
    obtain ⟨key, hk, hn, rfl⟩ := (mem_tombstonesOf d w ms hr t).mp ht
    refine ⟨rfl, hk, ?_⟩
    intro g hg
    obtain ⟨m, hm, rfl⟩ := List.mem_map.mp hg
    exact hn m hm

/-- Witness of C5: a poll that reports the same address and port twice. -/
theorem batch_composition_witness :
    ∃ tombs,
      sent (iteration afterOnePoll
        (okWorld [member4 10 0 0 2 9100, member4 10 0 0 2 9100] .tick true)).2.1 =
        [[member4 10 0 0 2 9100, member4 10 0 0 2 9100].map afterOnePoll.parseMember
          ++ tombs] ∧
      ([member4 10 0 0 2 9100, member4 10 0 0 2 9100].map afterOnePoll.parseMember).length
        = [member4 10 0 0 2 9100, member4 10 0 0 2 9100].length ∧
      (∀ g ∈ [member4 10 0 0 2 9100, member4 10 0 0 2 9100].map afterOnePoll.parseMember,
        isLive g = true) ∧
      ∀ t ∈ tombs, t.Targets = [] ∧ t.Source ∈ keys afterOnePoll.oldSourceList ∧
        ∀ g ∈ [member4 10 0 0 2 9100, member4 10 0 0 2 9100].map afterOnePoll.parseMember,
          g.Source ≠ t.Source :=
  batch_composition afterOnePoll
    (okWorld [member4 10 0 0 2 9100, member4 10 0 0 2 9100] .tick true)
    [member4 10 0 0 2 9100, member4 10 0 0 2 9100] (okWorld_rangeOK _ _ _)
    (okWorld_succeeds _ _ _ _)

/-- C8, idempotent identical polls: when two consecutive successful cycles of
`Run` both poll the member list `ms`, the second batch has the same live
groups as the first and no group without targets. -/
theorem idempotent_identical_polls (d : discovery) (w1 w2 : World) (ms : List Member)
    (hr : w2.RangeOK) (h1 : Succeeds d w1 ms)
    (hcont : selectWait w1.ready w1.pickFirst = Exit.continue_)
    (h2 : Succeeds (iteration d w1).1 w2 ms) :
    ∃ b1 b2, sent (Run d [w1, w2]).2 = [b1, b2] ∧
      b2.filter isLive = b1.filter isLive ∧ ∀ g ∈ b2, g.Targets ≠ [] := by
  have hexit : (iteration d w1).2.2 = Exit.continue_ := by
    rw [iteration_success d w1 ms h1]; exact hcont
  have hold := oldSourceList_iteration_success d w1 ms h1
  have htomb : tombstonesOf (iteration d w1).1 w2 ms = [] :=
    tombstonesOf_same d _ w2 ms hr hold
  refine ⟨ms.map d.parseMember ++ tombstonesOf d w1 ms, ms.map d.parseMember, ?_, ?_, ?_⟩
  · rw [Run_cons_continue d w1 [w2] hexit, Run_single, sent_append,
      sent_iteration_success d w1 ms h1, sent_iteration_success _ w2 ms h2, htomb]
    simp only [List.append_nil, List.singleton_append]
    rfl
  · rw [filter_isLive_batch]
    apply List.filter_eq_self.mpr
    intro g hg
    obtain ⟨m, _, rfl⟩ := List.mem_map.mp hg
    rfl
  · intro g hg
    obtain ⟨m, _, rfl⟩ := List.mem_map.mp hg
    simp [discovery.parseMember]

/-- Witness of C8: the same two members polled twice after an earlier poll of
another list. -/
theorem idempotent_identical_polls_witness :
    ∃ b1 b2,
      sent (Run afterOnePoll
        [okWorld [member4 10 0 0 1 9100, member4 10 0 0 2 9100] .tick true,
          okWorld [member4 10 0 0 1 9100, member4 10 0 0 2 9100] .tick true]).2
        = [b1, b2] ∧
      b2.filter isLive = b1.filter isLive ∧ ∀ g ∈ b2, g.Targets ≠ [] :=
  idempotent_identical_polls afterOnePoll
    (okWorld [member4 10 0 0 1 9100, member4 10 0 0 2 9100] .tick true)
    (okWorld [member4 10 0 0 1 9100, member4 10 0 0 2 9100] .tick true)
    [member4 10 0 0 1 9100, member4 10 0 0 2 9100]
    (okWorld_rangeOK _ _ _) (okWorld_succeeds _ _ _ _) rfl (okWorld_succeeds _ _ _ _)

/-- C4 as stated fails: for the member `::1` port 9100 the host text is `::1`
and the port text `9100`, and the address label is `[::1]:9100`, not the host
followed by a colon and the port. -/
theorem parseMember_hostPort_counterexample :
    IP.String loopback6.Addr = "::1" ∧ toString loopback6.Port = "9100" ∧
      ((newDiscovery remoteConf).parseMember loopback6).Targets
        = [[(AddressLabel, "[::1]:9100")]] ∧
      ((newDiscovery remoteConf).parseMember loopback6).Targets
        ≠ [[(AddressLabel, IP.String loopback6.Addr ++ ":" ++ toString loopback6.Port)]] := by
  decide

/-- C4 amended: for every member, `parseMember` returns a group with exactly
one target, a label-set with exactly one entry, the address label; its value
is the host text, a colon and the decimal port when the host text holds no
colon, and the host text in square brackets, a colon and the decimal port
when it does (a literal IPv6 address); the group-level labels are empty. -/
theorem parseMember_output (d : discovery) (m : Member) :
    ∃ v, (d.parseMember m).Targets = [[(AddressLabel, v)]] ∧
      (d.parseMember m).Labels = [] ∧
      (':' ∉ (IP.String m.Addr).toList →
        v = IP.String m.Addr ++ ":" ++ toString m.Port) ∧
      (':' ∈ (IP.String m.Addr).toList →
        v = "[" ++ IP.String m.Addr ++ "]:" ++ toString m.Port) := by
  refine ⟨JoinHostPort (IP.String m.Addr) (toString m.Port), rfl, rfl, ?_, ?_⟩
  · intro h; unfold JoinHostPort; rw [if_neg h]
  · intro h; unfold JoinHostPort; rw [if_pos h]

/-- Witness of C4 amended: an IPv4 member, whose host text holds no colon. -/
theorem parseMember_output_witness :
    ':' ∉ (IP.String (member4 10 0 0 1 9100).Addr).toList ∧
      ∃ v, ((newDiscovery remoteConf).parseMember (member4 10 0 0 1 9100)).Targets
          = [[(AddressLabel, v)]] ∧
        ((newDiscovery remoteConf).parseMember (member4 10 0 0 1 9100)).Labels = [] ∧
        (':' ∉ (IP.String (member4 10 0 0 1 9100).Addr).toList →
          v = IP.String (member4 10 0 0 1 9100).Addr ++ ":"
            ++ toString (member4 10 0 0 1 9100).Port) ∧
        (':' ∈ (IP.String (member4 10 0 0 1 9100).Addr).toList →
          v = "[" ++ IP.String (member4 10 0 0 1 9100).Addr ++ "]:"
            ++ toString (member4 10 0 0 1 9100).Port) :=
  ⟨by decide, parseMember_output (newDiscovery remoteConf) (member4 10 0 0 1 9100)⟩

/-- C6 on the code: in the four-poll scenario from a fresh discovery the
batches sent are two live groups, then one live group and no tombstone, then
(after the failed poll) two live groups; the source set left by poll 1 is
the single empty source, and no group carries the source `10.0.0.2:9100`. -/
theorem four_poll_scenario_code :
    sent (Run (newDiscovery remoteConf) fourPolls).2 =
      [[{ Targets := [[("__address__", "10.0.0.1:9100")]], Labels := [], Source := "" },
        { Targets := [[("__address__", "10.0.0.2:9100")]], Labels := [], Source := "" }],
       [{ Targets := [[("__address__", "10.0.0.1:9100")]], Labels := [], Source := "" }],
       [{ Targets := [[("__address__", "10.0.0.1:9100")]], Labels := [], Source := "" },
        { Targets := [[("__address__", "10.0.0.3:9100")]], Labels := [], Source := "" }]] ∧
      keys (Run (newDiscovery remoteConf) (fourPolls.take 1)).1.oldSourceList = [""] ∧
      keys (Run (newDiscovery remoteConf) (fourPolls.take 3)).1.oldSourceList = [""] := by
  decide

/-- C7 on the code: the groups built for `10.0.0.1:9100` and `10.0.0.2:9100`
have different address labels and the same `Source`, the empty string. -/
theorem parseMember_source_code :
    ((newDiscovery remoteConf).parseMember (member4 10 0 0 1 9100)).Targets
        ≠ ((newDiscovery remoteConf).parseMember (member4 10 0 0 2 9100)).Targets ∧
      ((newDiscovery remoteConf).parseMember (member4 10 0 0 1 9100)).Source = "" ∧
      ((newDiscovery remoteConf).parseMember (member4 10 0 0 2 9100)).Source = "" := by
  decide

/-- C9 on the code: with the configured address `10.0.0.5:7373`, both cycles
of `Run` hand `localhost:7373` to `client.ClientFromConfig`. -/
theorem connect_address_code :
    (newDiscovery remoteConf).address = "10.0.0.5:7373" ∧
      connects (Run (newDiscovery remoteConf)
        [okWorld [] .tick true, okWorld [] .tick true]).2
        = ["localhost:7373", "localhost:7373"] := by
  decide

/-- C10 as stated fails: at the wait after the first batch, cancellation is
requested and a tick is pending; the `select` takes the tick, and `Run`
connects again and sends a second batch. -/
theorem cancel_priority_counterexample :
    connects (Run (newDiscovery remoteConf)
        [okWorld [member4 10 0 0 1 9100] .both true,
          okWorld [member4 10 0 0 1 9100] .done true]).2
        = ["localhost:7373", "localhost:7373"] ∧
      (sent (Run (newDiscovery remoteConf)
        [okWorld [member4 10 0 0 1 9100] .both true,
          okWorld [member4 10 0 0 1 9100] .done true]).2).length = 2 := by
  decide

/-- C10 amended: when `Run` reaches its wait after a successful poll and
cancellation has been requested, with no tick pending, or with a tick
pending and the `select` taking the `ctx.Done()` case, `Run` ends there:
whatever iterations could follow, it has connected once and sent one batch. -/
theorem cancellation_at_wait (d : discovery) (w : World) (ms : List Member)
    (ws : List World) (hs : Succeeds d w ms)
    (hc : w.ready = Ready.done ∨ (w.ready = Ready.both ∧ w.pickFirst = false)) :
    Run d (w :: ws) = ((iteration d w).1, (iteration d w).2.1) ∧
      connects (Run d (w :: ws)).2 = [DefaultSDConfig.Address] ∧
      ∃ batch, sent (Run d (w :: ws)).2 = [batch] := by
  have hexit : (iteration d w).2.2 = Exit.return_ := by
    rw [iteration_success d w ms hs]
    rcases hc with h | ⟨h1, h2⟩
    · simp [selectWait, h]
    · simp [selectWait, h1, h2]
  have hrun := Run_cons_return d w ws hexit
  refine ⟨hrun, ?_, ?_⟩
  · rw [hrun, iteration_success d w ms hs]; rfl
  · rw [hrun]; exact ⟨_, sent_iteration_success d w ms hs⟩

/-- Witness of C10 amended: cancellation requested with no tick pending; the
second world is never polled. -/
theorem cancellation_at_wait_witness :
    Run afterOnePoll
        [okWorld [member4 10 0 0 1 9100] .done true, okWorld [] .tick true]
        = ((iteration afterOnePoll (okWorld [member4 10 0 0 1 9100] .done true)).1,
          (iteration afterOnePoll (okWorld [member4 10 0 0 1 9100] .done true)).2.1) ∧
      connects (Run afterOnePoll
        [okWorld [member4 10 0 0 1 9100] .done true, okWorld [] .tick true]).2
        = [DefaultSDConfig.Address] ∧
      ∃ batch, sent (Run afterOnePoll
        [okWorld [member4 10 0 0 1 9100] .done true, okWorld [] .tick true]).2 = [batch] :=
  cancellation_at_wait afterOnePoll (okWorld [member4 10 0 0 1 9100] .done true)
    [member4 10 0 0 1 9100] [okWorld [] .tick true] (okWorld_succeeds _ _ _ _)
    (Or.inl rfl)

end SerfSD
